import Mathlib

/-!
Shallow embedding of the lead-capture backend (src/server.js, with the first
file variant in src/unnamed/part_000 where a claim needs it).

Strings are modelled as lists of characters (the char-list view of a JS
string).  A missing (undefined or null) request field is `none`; a present
string field is `some l`.  JS semantics used by the code are embedded
directly: `String.prototype.trim` as `jsTrim`, global single-character
regex replacement as `replaceAll`, `substring(0, 500)` as `List.take 500`.
The express-validator sanitizer `escape()` (validator.js `escape`) is
embedded as `vEscape`; its format-checking validators `isEmail`,
`normalizeEmail` and `isISO8601`, as well as the `Date#toLocaleDateString`
rendering, live in the external validator / runtime libraries and are kept
abstract as an `ExtLib` parameter.
-/

/-- Character constants written via code points where a literal would be
awkward: the double quote (34), the apostrophe (39). -/
def quoteC : Char := Char.ofNat 34

/-- Apostrophe character, code point 39. -/
def aposC : Char := Char.ofNat 39

/-- Backtick character, code point 96. -/
def backtickC : Char := Char.ofNat 96

/-- JS whitespace for `String.prototype.trim`: WhiteSpace plus
LineTerminator code points. -/
def jsWS (c : Char) : Bool :=
  c.toNat = 9 || c.toNat = 10 || c.toNat = 11 || c.toNat = 12 ||
  c.toNat = 13 || c.toNat = 32 || c.toNat = 160 || c.toNat = 0x1680 ||
  (0x2000 ≤ c.toNat && c.toNat ≤ 0x200A) || c.toNat = 0x2028 ||
  c.toNat = 0x2029 || c.toNat = 0x202F || c.toNat = 0x205F ||
  c.toNat = 0x3000 || c.toNat = 0xFEFF

/-- Global replacement of one character by a string, the meaning of the
`.replace(/c/g, rep)` calls in the source. -/
def replaceAll (c : Char) (rep : List Char) : List Char → List Char
  | [] => []
  | x :: xs => (if x = c then rep else [x]) ++ replaceAll c rep xs

/-- JS `String.prototype.trim`: drop whitespace from the front, then from
the back. -/
def jsTrim (l : List Char) : List Char :=
  ((l.dropWhile jsWS).reverse.dropWhile jsWS).reverse

/-- Body of `sanitize` on a nonempty string (src/server.js lines 81 to 85):
replace every `<` by its entity, then every `>` by its entity, then trim,
then `substring(0, 500)`. -/
def sanitizeCore (l : List Char) : List Char :=
  (jsTrim (replaceAll '>' "&gt;".data (replaceAll '<' "&lt;".data l))).take 500

/-- The `sanitize` helper of src/server.js lines 79 to 86.  `none` models a
missing (undefined or null) argument; the JS falsiness test on line 80 also
sends the empty string to the empty string. -/
def sanitize (str : Option (List Char)) : List Char :=
  match str with
  | none => []
  | some l => if l = [] then [] else sanitizeCore l

/-- Body of the variant `sanitize` of src/unnamed/part_000 lines 86 to 92:
additionally replaces every double quote and every apostrophe by entities
before trimming and truncating. -/
def sanitizeV1Core (l : List Char) : List Char :=
  (jsTrim (replaceAll aposC "&#x27;".data
    (replaceAll quoteC "&quot;".data
      (replaceAll '>' "&gt;".data (replaceAll '<' "&lt;".data l))))).take 500

/-- The `sanitize` helper of the first variant in src/unnamed/part_000
lines 84 to 93. -/
def sanitizeV1 (str : Option (List Char)) : List Char :=
  match str with
  | none => []
  | some l => if l = [] then [] else sanitizeV1Core l

/-- The validator.js `escape` sanitizer invoked by the `.escape()` steps of
the validation chains: sequential global replacement of the characters
`&`, `"`, the apostrophe, `<`, `>`, `/`, the backslash and the backtick by
HTML entities.  None of the replacement strings contains a character that a
later pass replaces, so the sequential passes compose as written. -/
def vEscape (l : List Char) : List Char :=
  replaceAll backtickC "&#96;".data
    (replaceAll '\\' "&#x5C;".data
      (replaceAll '/' "&#x2F;".data
        (replaceAll '>' "&gt;".data
          (replaceAll '<' "&lt;".data
            (replaceAll aposC "&#x27;".data
              (replaceAll quoteC "&quot;".data
                (replaceAll '&' "&amp;".data l)))))))

/-- External collaborators kept abstract: the validator.js email and date
checks and normalization, and the JS date rendering used in the booking
email body. -/
structure ExtLib where
  isEmail : List Char → Bool
  normalizeEmail : List Char → List Char
  isISO8601 : List Char → Bool
  toLocaleDateString : List Char → List Char

theorem sanitize_example_tag : sanitize (some "<b>".data) = "&lt;b&gt;".data := by decide

theorem sanitize_example_trim : sanitize (some "  hi  ".data) = "hi".data := by decide

theorem sanitize_example_none : sanitize none = [] := by decide

theorem vEscape_example : vEscape "</b>".data = "&lt;&#x2F;b&gt;".data := by decide

theorem sanitizeV1_example : sanitizeV1 (some [quoteC]) = "&quot;".data := by decide

theorem jsTrim_example : jsTrim "  a b ".data = "a b".data := by decide

/-- Process configuration read from the environment by the handlers. -/
structure Env where
  smtpUser : List Char
  businessEmail : List Char

/-- One outbound email message as assembled for `transporter.sendMail`. -/
structure Mail where
  fromAddr : List Char
  toAddr : List Char
  replyTo : List Char
  subject : List Char
  html : List Char
deriving DecidableEq

/-- One HTTP JSON response: status code, the `success` field, and the
optional `message` field. -/
structure HttpResponse where
  status : Nat
  success : Bool
  message : Option (List Char)
deriving DecidableEq

/-- Outcome of the single `transporter.sendMail` call: success, or a
rejection carrying the transport error detail. -/
inductive Transport where
  | ok
  | error (detail : List Char)

/-- Raw body of a POST /api/booking request; a missing field is `none`. -/
structure BookingBody where
  firstName : Option (List Char)
  lastName : Option (List Char)
  email : Option (List Char)
  date : Option (List Char)
  time : Option (List Char)

/-- Raw body of a POST /api/contact request; a missing field is `none`. -/
structure ContactBody where
  name : Option (List Char)
  email : Option (List Char)
  message : Option (List Char)

/-- Validation chain `trim().notEmpty().escape()` used for
`firstName`, `lastName` (booking) and `name` (contact): a missing field
stringifies to the empty string, the value is trimmed, `notEmpty` records
an error when the trimmed value is empty, and `escape` stores the escaped
trimmed value back into the body.  Returns (verdict, stored value). -/
def chainTrimNotEmptyEscape (v : Option (List Char)) : Bool × List Char :=
  let v1 := jsTrim (v.getD [])
  (!v1.isEmpty, vEscape v1)

/-- Validation chain `isEmail().normalizeEmail()` for the email fields. -/
def chainEmail (lib : ExtLib) (v : Option (List Char)) : Bool × List Char :=
  let v0 := v.getD []
  (lib.isEmail v0, lib.normalizeEmail v0)

/-- Validation chain `notEmpty().isISO8601().toDate()` for the booking
date; the stored date is rendered later through the external
`toLocaleDateString`, so the string is carried unchanged here. -/
def chainDate (lib : ExtLib) (v : Option (List Char)) : Bool × List Char :=
  let v0 := v.getD []
  (!v0.isEmpty && lib.isISO8601 v0, v0)

/-- Validation chain `notEmpty().trim().escape()` for the booking time:
note that `notEmpty` runs on the raw value, before the trim. -/
def chainTime (v : Option (List Char)) : Bool × List Char :=
  let v0 := v.getD []
  (!v0.isEmpty, vEscape (jsTrim v0))

/-- Validation chain `trim().notEmpty().isLength({min:10,max:2000}).escape()`
for the contact message: the length window applies to the trimmed value. -/
def chainMessage (v : Option (List Char)) : Bool × List Char :=
  let v1 := jsTrim (v.getD [])
  (!v1.isEmpty && (decide (10 ≤ v1.length) && decide (v1.length ≤ 2000)),
   vEscape v1)

/-- Verdict of `validationResult(req).isEmpty()` for the booking route:
all five field chains pass. -/
def bookingValidationOk (lib : ExtLib) (b : BookingBody) : Bool :=
  (chainTrimNotEmptyEscape b.firstName).1 &&
  (chainTrimNotEmptyEscape b.lastName).1 &&
  (chainEmail lib b.email).1 &&
  (chainDate lib b.date).1 &&
  (chainTime b.time).1

/-- Verdict of `validationResult(req).isEmpty()` for the contact route. -/
def contactValidationOk (lib : ExtLib) (c : ContactBody) : Bool :=
  (chainTrimNotEmptyEscape c.name).1 &&
  (chainEmail lib c.email).1 &&
  (chainMessage c.message).1

/-- Response `res.status(400).json({success:false, message:'Invalid data.'})`. -/
def invalidDataResp : HttpResponse :=
  { status := 400, success := false, message := some "Invalid data.".data }

/-- Response `res.status(500).json({success:false, message:'Failed to send.'})`. -/
def failedSendResp : HttpResponse :=
  { status := 500, success := false, message := some "Failed to send.".data }

/-- Response `res.json({success:true})`. -/
def okResp : HttpResponse :=
  { status := 200, success := true, message := none }

/-- The `from` header `"LWA Website" <SMTP_USER>`. -/
def mailFrom (env : Env) : List Char :=
  "\"LWA Website\" <".data ++ env.smtpUser ++ ">".data

/-- Booking subject line of src/server.js line 120. -/
def bookingSubject (safeFirst safeLast : List Char) : List Char :=
  "📅 New Booking — ".data ++ safeFirst ++ " ".data ++ safeLast

/-- Booking HTML body template of src/server.js lines 121 to 136, with the
five interpolation holes as arguments. -/
def bookingHtml (safeFirst safeLast safeEmail dateStr safeTime : List Char) :
    List Char :=
  "\n        <div style=\"font-family:Arial,sans-serif;padding:30px;background:#f9f9f9\">\n          <div style=\"background:#080c0a;padding:20px;text-align:center;border-radius:8px 8px 0 0\">\n            <h2 style=\"color:#00e87a;margin:0\">LWA Leads Group</h2>\n            <p style=\"color:#7a9484;margin:4px 0 0;font-size:13px\">\n              New Booking Request\n            </p>\n          </div>\n          <div style=\"background:#fff;padding:24px;border:1px solid #e0e0e0;border-top:none;border-radius:0 0 8px 8px\">\n            <p><strong>Name:</strong> ".data
  ++ safeFirst ++ " ".data ++ safeLast
  ++ "</p>\n            <p><strong>Email:</strong> ".data ++ safeEmail
  ++ "</p>\n            <p><strong>Date:</strong> ".data ++ dateStr
  ++ "</p>\n            <p><strong>Time:</strong> ".data ++ safeTime
  ++ "</p>\n          </div>\n        </div>\n        ".data

/-- Contact subject line of src/server.js line 175. -/
def contactSubject (safeName : List Char) : List Char :=
  "✉️ New Message from ".data ++ safeName

/-- Contact HTML body template of src/server.js lines 176 to 190. -/
def contactHtml (safeName safeEmail safeMessage : List Char) : List Char :=
  "\n        <div style=\"font-family:Arial,sans-serif;padding:30px;background:#f9f9f9\">\n          <div style=\"background:#080c0a;padding:20px;text-align:center;border-radius:8px 8px 0 0\">\n            <h2 style=\"color:#00e87a;margin:0\">LWA Leads Group</h2>\n          </div>\n          <div style=\"background:#fff;padding:24px;border:1px solid #e0e0e0;border-top:none;border-radius:0 0 8px 8px\">\n            <p><strong>Name:</strong> ".data
  ++ safeName
  ++ "</p>\n            <p><strong>Email:</strong> ".data ++ safeEmail
  ++ "</p>\n            <p><strong>Message:</strong></p>\n            <div style=\"background:#f8f8f8;padding:16px;border-radius:4px\">\n              ".data
  ++ safeMessage
  ++ "\n            </div>\n          </div>\n        </div>\n        ".data

/-- The booking message handed to `transporter.sendMail` (src/server.js
lines 116 to 137), built from the post-validation body fields. -/
def bookingMailOf (env : Env) (lib : ExtLib)
    (firstName lastName email dateStr time : List Char) : Mail :=
  { fromAddr := mailFrom env
    toAddr := env.businessEmail
    replyTo := email
    subject := bookingSubject (sanitize (some firstName)) (sanitize (some lastName))
    html := bookingHtml (sanitize (some firstName)) (sanitize (some lastName))
      (sanitize (some email)) (lib.toLocaleDateString dateStr)
      (sanitize (some time)) }

/-- The contact message handed to `transporter.sendMail` (src/server.js
lines 171 to 191). -/
def contactMailOf (env : Env) (name email message : List Char) : Mail :=
  { fromAddr := mailFrom env
    toAddr := env.businessEmail
    replyTo := email
    subject := contactSubject (sanitize (some name))
    html := contactHtml (sanitize (some name)) (sanitize (some email))
      (sanitize (some message)) }

/-- The POST /api/booking handler of src/server.js lines 98 to 146: run the
validation chains, answer 400 on any validation error, otherwise hand
exactly one message to the transport and map its outcome to the response.
The second component lists the delivery attempts made. -/
def bookingHandler (env : Env) (lib : ExtLib) (b : BookingBody)
    (t : Transport) : HttpResponse × List Mail :=
  if !(bookingValidationOk lib b) then (invalidDataResp, [])
  else
    let m := bookingMailOf env lib (chainTrimNotEmptyEscape b.firstName).2
      (chainTrimNotEmptyEscape b.lastName).2 (chainEmail lib b.email).2
      (chainDate lib b.date).2 (chainTime b.time).2
    match t with
    | Transport.ok => (okResp, [m])
    | Transport.error _ => (failedSendResp, [m])

/-- The POST /api/contact handler of src/server.js lines 150 to 200. -/
def contactHandler (env : Env) (lib : ExtLib) (c : ContactBody)
    (t : Transport) : HttpResponse × List Mail :=
  if !(contactValidationOk lib c) then (invalidDataResp, [])
  else
    let m := contactMailOf env (chainTrimNotEmptyEscape c.name).2
      (chainEmail lib c.email).2 (chainMessage c.message).2
    match t with
    | Transport.ok => (okResp, [m])
    | Transport.error _ => (failedSendResp, [m])

/-! Helper lemmas about `replaceAll` and `jsTrim`. -/

theorem mem_replaceAll {x c : Char} {rep l : List Char}
    (h : x ∈ replaceAll c rep l) : x ∈ rep ∨ (x ∈ l ∧ x ≠ c) := by
  induction l with
  | nil => simp [replaceAll] at h
  | cons y ys ih =>
    simp only [replaceAll, List.mem_append] at h
    rcases h with h | h
    · by_cases hyc : y = c
      · subst hyc; simp at h; exact Or.inl h
      · simp [hyc] at h
        exact Or.inr ⟨h ▸ List.mem_cons_self y ys, h ▸ hyc⟩
    · rcases ih h with h1 | ⟨h1, h2⟩
      · exact Or.inl h1
      · exact Or.inr ⟨List.mem_cons_of_mem _ h1, h2⟩

theorem not_mem_replaceAll {x c : Char} {rep l : List Char}
    (hrep : x ∉ rep) (h : x ∉ l ∨ x = c) : x ∉ replaceAll c rep l := by
  intro hx
  rcases mem_replaceAll hx with h1 | ⟨h1, h2⟩
  · exact hrep h1
  · rcases h with h | h
    · exact h h1
    · exact h2 h

theorem replaceAll_of_not_mem {c : Char} {rep l : List Char}
    (h : c ∉ l) : replaceAll c rep l = l := by
  induction l with
  | nil => rfl
  | cons x xs ih =>
    have hx : ¬(x = c) := fun e => h (e ▸ List.mem_cons_self x xs)
    simp [replaceAll, hx, ih (fun hc => h (List.mem_cons_of_mem _ hc))]

theorem mem_of_mem_dropWhile {p : Char → Bool} {x : Char} {l : List Char}
    (h : x ∈ l.dropWhile p) : x ∈ l := by
  induction l with
  | nil => simp at h
  | cons y ys ih =>
    rw [List.dropWhile_cons] at h
    by_cases hy : p y
    · simp [hy] at h
      exact List.mem_cons_of_mem _ (ih h)
    · simpa [hy] using h

theorem mem_jsTrim {x : Char} {l : List Char} (h : x ∈ jsTrim l) : x ∈ l := by
  unfold jsTrim at h
  rw [List.mem_reverse] at h
  have h1 := mem_of_mem_dropWhile h
  rw [List.mem_reverse] at h1
  exact mem_of_mem_dropWhile h1

theorem mem_sanitizeCore {x : Char} {l : List Char}
    (h : x ∈ sanitizeCore l) : x ∈ replaceAll '>' "&gt;".data (replaceAll '<' "&lt;".data l) := by
  unfold sanitizeCore at h
  exact mem_jsTrim (List.take_subset 500 _ h)

/-- C1.  The sanitize function of src/server.js is total and, on every
input (missing value, empty string, or any string of any length), returns
a string of length at most 500 that contains no literal `<` and no
literal `>`. -/
theorem sanitize_total_postcondition (s : Option (List Char)) :
    (sanitize s).length ≤ 500 ∧ '<' ∉ sanitize s ∧ '>' ∉ sanitize s := by
  refine ⟨?_, ?_, ?_⟩
  · match s with
    | none => simp [sanitize]
    | some l =>
      by_cases hl : l = []
      · simp [sanitize, hl]
      · simp only [sanitize, hl, if_false]
        unfold sanitizeCore
        rw [List.length_take]
        exact min_le_left _ _
  · match s with
    | none => simp [sanitize]
    | some l =>
      by_cases hl : l = []
      · simp [sanitize, hl]
      · simp only [sanitize, hl, if_false]
        intro hx
        have h1 := mem_sanitizeCore hx
        rcases mem_replaceAll h1 with h2 | ⟨h2, _⟩
        · simp at h2
        · rcases mem_replaceAll h2 with h3 | ⟨_, h4⟩
          · simp at h3
          · exact h4 rfl
  · match s with
    | none => simp [sanitize]
    | some l =>
      by_cases hl : l = []
      · simp [sanitize, hl]
      · simp only [sanitize, hl, if_false]
        intro hx
        have h1 := mem_sanitizeCore hx
        rcases mem_replaceAll h1 with h2 | ⟨_, h4⟩
        · simp at h2
        · exact h4 rfl

theorem sanitizeV1Core_eq_core {l : List Char} (hq : quoteC ∉ l)
    (ha : aposC ∉ l) : sanitizeV1Core l = sanitizeCore l := by
  have hq1 : quoteC ∉ replaceAll '<' "&lt;".data l :=
    not_mem_replaceAll (by decide) (Or.inl hq)
  have hq2 : quoteC ∉ replaceAll '>' "&gt;".data (replaceAll '<' "&lt;".data l) :=
    not_mem_replaceAll (by decide) (Or.inl hq1)
  have ha1 : aposC ∉ replaceAll '<' "&lt;".data l :=
    not_mem_replaceAll (by decide) (Or.inl ha)
  have ha2 : aposC ∉ replaceAll '>' "&gt;".data (replaceAll '<' "&lt;".data l) :=
    not_mem_replaceAll (by decide) (Or.inl ha1)
  have ha3 : aposC ∉ replaceAll quoteC "&quot;".data
      (replaceAll '>' "&gt;".data (replaceAll '<' "&lt;".data l)) :=
    not_mem_replaceAll (by decide) (Or.inl ha2)
  unfold sanitizeV1Core sanitizeCore
  rw [replaceAll_of_not_mem ha3, replaceAll_of_not_mem hq2]

/-- C8 counterexample.  The two sanitize functions are not extensionally
equal: on the one-character string consisting of a double quote, the
src/unnamed/part_000 variant returns the entity string while src/server.js
returns the quote unchanged. -/
theorem sanitize_variants_counterexample :
    sanitizeV1 (some [quoteC]) ≠ sanitize (some [quoteC]) := by decide

/-- C8 amended.  The sanitize functions of src/server.js and of the first
variant in src/unnamed/part_000 agree exactly on inputs containing no
double quote and no apostrophe; the variant additionally escapes those two
characters, so the file variants are not behaviorally identical. -/
theorem sanitize_variants_agree (s : Option (List Char))
    (hq : quoteC ∉ s.getD []) (ha : aposC ∉ s.getD []) :
    sanitizeV1 s = sanitize s := by
  match s with
  | none => rfl
  | some l =>
    by_cases hl : l = []
    · simp [sanitizeV1, sanitize, hl]
    · simp only [sanitizeV1, sanitize, hl, if_false]
      exact sanitizeV1Core_eq_core hq ha

theorem sanitize_variants_agree_witness :
    quoteC ∉ (some "abc".data).getD [] ∧ aposC ∉ (some "abc".data).getD [] ∧
    sanitizeV1 (some "abc".data) = sanitize (some "abc".data) :=
  ⟨by decide, by decide,
    sanitize_variants_agree (some "abc".data) (by decide) (by decide)⟩

/-- Witness input for the non-idempotence of sanitize: 499 letters followed
by a space and one more letter.  Escaping and trimming leave it unchanged,
and the 500-character cut then ends the result on the space, which a second
application of sanitize trims away. -/
def c7Input : List Char := List.replicate 499 'a' ++ [' ', 'b']

set_option maxRecDepth 100000

/-- C7.  The sanitize function of src/server.js is not idempotent: on
`c7Input` the truncation to 500 characters happens after escaping and
trimming, leaves a trailing space, and a second application removes it. -/
theorem sanitize_not_idempotent :
    ∃ x : List Char, sanitize (some (sanitize (some x))) ≠ sanitize (some x) :=
  ⟨c7Input, by decide⟩

/-- C2.  For every booking submission whose five fields pass the booking
validation chains, the handler under a successful transport responds with
`success:true` and hands exactly one message to the transport, whose
reply-to is the submission email field as stored by the validators (the
`normalizeEmail` output on the submitted address). -/
theorem booking_valid_dispatch (env : Env) (lib : ExtLib) (b : BookingBody)
    (hv : bookingValidationOk lib b = true) :
    (bookingHandler env lib b Transport.ok).1.success = true ∧
    (bookingHandler env lib b Transport.ok).2.map Mail.replyTo =
      [lib.normalizeEmail (b.email.getD [])] := by
  simp [bookingHandler, hv, okResp, bookingMailOf, chainEmail]

/-- C3.  Every contact submission whose message is, after trimming,
shorter than 10 or longer than 2000 characters is rejected with the
generic 400 invalid-data response, and no message is handed to the
transport, whatever the transport would have answered. -/
theorem contact_bad_message_rejected (env : Env) (lib : ExtLib)
    (c : ContactBody) (t : Transport)
    (h : (jsTrim (c.message.getD [])).length < 10 ∨
      2000 < (jsTrim (c.message.getD [])).length) :
    contactHandler env lib c t = (invalidDataResp, []) := by
  have hm : (chainMessage c.message).1 = false := by
    unfold chainMessage
    rcases h with h | h
    · have hd : decide (10 ≤ (jsTrim (c.message.getD [])).length) = false :=
        decide_eq_false (Nat.not_le.2 h)
      simp [hd]
    · have hd : decide ((jsTrim (c.message.getD [])).length ≤ 2000) = false :=
        decide_eq_false (Nat.not_le.2 h)
      simp [hd]
  unfold contactHandler contactValidationOk
  rw [hm]
  simp

/-- C6.  For every validated submission on either route, when the
transport rejects the message, the handler answers with the fixed generic
500 response `failedSendResp`, whatever the transport error detail was
(the response is the same constant for every detail, so no part of the
detail reaches the caller), and exactly one delivery attempt was made. -/
theorem transport_failure_generic (env : Env) (lib : ExtLib)
    (b : BookingBody) (c : ContactBody) (detail : List Char)
    (hb : bookingValidationOk lib b = true)
    (hc : contactValidationOk lib c = true) :
    (bookingHandler env lib b (Transport.error detail)).1 = failedSendResp ∧
    (bookingHandler env lib b (Transport.error detail)).2.length = 1 ∧
    (contactHandler env lib c (Transport.error detail)).1 = failedSendResp ∧
    (contactHandler env lib c (Transport.error detail)).2.length = 1 := by
  simp [bookingHandler, contactHandler, hb, hc]

/-- C4 amended (for src/server.js).  The booking validators reject
wholesale, with 400 and no dispatch, any submission whose firstName or
lastName is empty after trimming or whose time is empty as submitted. -/
theorem booking_presence_rejected (env : Env) (lib : ExtLib)
    (b : BookingBody) (t : Transport)
    (h : jsTrim (b.firstName.getD []) = [] ∨
      jsTrim (b.lastName.getD []) = [] ∨ b.time.getD [] = []) :
    bookingHandler env lib b t = (invalidDataResp, []) := by
  have hv : bookingValidationOk lib b = false := by
    unfold bookingValidationOk chainTrimNotEmptyEscape chainTime
    rcases h with h | h | h
    · simp [h]
    · simp [h]
    · simp [h]
  unfold bookingHandler
  rw [hv]
  simp

/-! Concrete fixtures used by the witnesses and counterexamples. -/

def demoEnv : Env :=
  { smtpUser := "info@lwa.example".data
    businessEmail := "leads@lwa.example".data }

def demoLib : ExtLib :=
  { isEmail := fun l => l == "bob@example.com".data
    normalizeEmail := fun l => l
    isISO8601 := fun l => l == "2025-01-01".data
    toLocaleDateString := fun _ => "1/1/2025".data }

def demoBooking : BookingBody :=
  { firstName := some "Ann".data
    lastName := some "Doe".data
    email := some "bob@example.com".data
    date := some "2025-01-01".data
    time := some "10am".data }

/-- Booking body with a 51-character firstName, otherwise valid. -/
def demoBooking51 : BookingBody :=
  { demoBooking with firstName := some (List.replicate 51 'a') }

/-- Booking body whose time is a single space, otherwise valid. -/
def demoBookingWsTime : BookingBody :=
  { demoBooking with time := some " ".data }

/-- Booking body whose firstName is whitespace only, otherwise valid. -/
def demoBookingNoFirst : BookingBody :=
  { demoBooking with firstName := some "  ".data }

/-- The contact scenario body of the specification: name with HTML tags,
valid email, 22-character message. -/
def demoContact : ContactBody :=
  { name := some "<b>Bob</b>".data
    email := some "bob@example.com".data
    message := some "Hello there, need help".data }

/-- Contact body whose trimmed message has fewer than 10 characters. -/
def demoContactShort : ContactBody :=
  { demoContact with message := some "short".data }

theorem booking_valid_dispatch_witness :
    bookingValidationOk demoLib demoBooking = true ∧
    ((bookingHandler demoEnv demoLib demoBooking Transport.ok).1.success = true ∧
     (bookingHandler demoEnv demoLib demoBooking Transport.ok).2.map Mail.replyTo =
       [demoLib.normalizeEmail (demoBooking.email.getD [])]) :=
  ⟨by decide, booking_valid_dispatch demoEnv demoLib demoBooking (by decide)⟩

theorem contact_bad_message_rejected_witness :
    (jsTrim (demoContactShort.message.getD [])).length < 10 ∧
    contactHandler demoEnv demoLib demoContactShort Transport.ok =
      (invalidDataResp, []) :=
  ⟨by decide, contact_bad_message_rejected demoEnv demoLib demoContactShort
    Transport.ok (Or.inl (by decide))⟩

theorem transport_failure_generic_witness :
    bookingValidationOk demoLib demoBooking = true ∧
    contactValidationOk demoLib demoContact = true ∧
    ((bookingHandler demoEnv demoLib demoBooking (Transport.error "SMTP auth failed".data)).1 = failedSendResp ∧
     (bookingHandler demoEnv demoLib demoBooking (Transport.error "SMTP auth failed".data)).2.length = 1 ∧
     (contactHandler demoEnv demoLib demoContact (Transport.error "SMTP auth failed".data)).1 = failedSendResp ∧
     (contactHandler demoEnv demoLib demoContact (Transport.error "SMTP auth failed".data)).2.length = 1) :=
  ⟨by decide, by decide,
    transport_failure_generic demoEnv demoLib demoBooking demoContact
      "SMTP auth failed".data (by decide) (by decide)⟩

/-- C4 counterexample.  In src/server.js a booking whose firstName has 51
characters passes validation and is dispatched with success, and so does a
booking whose time is whitespace only (which is empty after trimming):
the claimed 50-character cap and the empty-after-trim rejection for time
do not hold. -/
theorem booking_bounds_counterexample :
    50 < (demoBooking51.firstName.getD []).length ∧
    (bookingHandler demoEnv demoLib demoBooking51 Transport.ok).1.status = 200 ∧
    (bookingHandler demoEnv demoLib demoBooking51 Transport.ok).2.length = 1 ∧
    jsTrim (demoBookingWsTime.time.getD []) = [] ∧
    (bookingHandler demoEnv demoLib demoBookingWsTime Transport.ok).1.success = true ∧
    (bookingHandler demoEnv demoLib demoBookingWsTime Transport.ok).2.length = 1 := by
  decide

theorem booking_presence_rejected_witness :
    jsTrim (demoBookingNoFirst.firstName.getD []) = [] ∧
    bookingHandler demoEnv demoLib demoBookingNoFirst Transport.ok =
      (invalidDataResp, []) :=
  ⟨by decide, booking_presence_rejected demoEnv demoLib demoBookingNoFirst
    Transport.ok (Or.inl (by decide))⟩


/-- Boolean prefix test between character lists, used to state substring
facts about the generated email bodies in an executable way. -/
def startsWith : List Char → List Char → Bool
  | [], _ => true
  | _ :: _, [] => false
  | p :: ps, x :: xs => p = x && startsWith ps xs

/-- Boolean contiguous-substring test: does `pat` occur somewhere in the
second list? -/
def containsSeq (pat : List Char) : List Char → Bool
  | [] => startsWith pat []
  | x :: xs => startsWith pat (x :: xs) || containsSeq pat xs

theorem startsWith_iff (p l : List Char) : startsWith p l = true ↔ p <+: l := by
  induction p generalizing l with
  | nil => simp [startsWith]
  | cons a ps ih =>
    cases l with
    | nil => simp [startsWith]
    | cons x xs => simp [startsWith, List.cons_prefix_cons, ih, and_comm]

theorem containsSeq_iff (p l : List Char) : containsSeq p l = true ↔ p <:+: l := by
  induction l with
  | nil => simp [containsSeq, startsWith_iff]
  | cons x xs ih =>
    rw [List.infix_cons_iff]
    simp [containsSeq, startsWith_iff, ih]

/-- C5 counterexample.  On the specification scenario body, the handler
does answer `success:true` and dispatches exactly one message, but the
string `&lt;b&gt;Bob&lt;/b&gt;` appears nowhere in the email body: the
`escape()` validation step also encodes the forward slash, so the claimed
rendering of the name is wrong. -/
theorem contact_scenario_counterexample :
    (contactHandler demoEnv demoLib demoContact Transport.ok).1.success = true ∧
    (contactHandler demoEnv demoLib demoContact Transport.ok).2.map
      (fun m => containsSeq "&lt;b&gt;Bob&lt;/b&gt;".data m.html) = [false] := by
  decide

/-- C5 amended.  On the scenario body the response is `success:true` and
the dispatched email body embeds the name as `&lt;b&gt;Bob&lt;&#x2F;b&gt;`:
angle brackets become entities as claimed, and the forward slash is also
encoded as an entity by the `escape()` validation step. -/
theorem contact_scenario_amended :
    (contactHandler demoEnv demoLib demoContact Transport.ok).1.success = true ∧
    (contactHandler demoEnv demoLib demoContact Transport.ok).2.map Mail.html =
      [contactHtml "&lt;b&gt;Bob&lt;&#x2F;b&gt;".data "bob@example.com".data
        "Hello there, need help".data] := by
  decide

/-- Contact body whose name contains an embedded line feed. -/
def demoContactNl : ContactBody :=
  { demoContact with name := some "A\nB".data }

/-- C10.  A name with an interior line feed passes the name validation,
its sanitized value still contains the line feed (sanitize only trims the
ends), and that value is interpolated verbatim into the subject line of
the dispatched email, which therefore contains a line feed. -/
theorem sanitize_newline_in_subject :
    (chainTrimNotEmptyEscape demoContactNl.name).1 = true ∧
    '\n' ∈ sanitize (some (chainTrimNotEmptyEscape demoContactNl.name).2) ∧
    (contactHandler demoEnv demoLib demoContactNl Transport.ok).2.map Mail.subject =
      [contactSubject (sanitize (some (chainTrimNotEmptyEscape demoContactNl.name).2))] ∧
    '\n' ∈ contactSubject (sanitize (some (chainTrimNotEmptyEscape demoContactNl.name).2)) := by
  decide

/-! Lemmas tracking the ends of a string through escaping, used to show
that sanitize reduces to a plain 500-character cut on escaped input. -/

theorem replaceAll_append (c : Char) (rep l₁ l₂ : List Char) :
    replaceAll c rep (l₁ ++ l₂) = replaceAll c rep l₁ ++ replaceAll c rep l₂ := by
  induction l₁ with
  | nil => rfl
  | cons x xs ih => simp [replaceAll, ih]

theorem replaceAll_reverse (c : Char) (rep l : List Char) :
    (replaceAll c rep l).reverse = replaceAll c rep.reverse l.reverse := by
  induction l with
  | nil => rfl
  | cons x xs ih =>
    rw [List.reverse_cons, replaceAll_append]
    show ((if x = c then rep else [x]) ++ replaceAll c rep xs).reverse = _
    rw [List.reverse_append, ih]
    by_cases hx : x = c <;> simp [replaceAll, hx]

/-- A replacement string is acceptable when it is nonempty and neither its
first nor its last character is whitespace; all eight entity strings used
by the escapes qualify. -/
def repOk (rep : List Char) : Bool :=
  match rep.head?, rep.getLast? with
  | some a, some b => !jsWS a && !jsWS b
  | _, _ => false

theorem repOk_ne_nil {rep : List Char} (h : repOk rep = true) : rep ≠ [] := by
  intro he
  subst he
  simp [repOk] at h

theorem repOk_head {rep : List Char} (h : repOk rep = true) :
    ∀ a, rep.head? = some a → jsWS a = false := by
  intro a ha
  unfold repOk at h
  rw [ha] at h
  cases hb : rep.getLast? with
  | none => rw [hb] at h; simp at h
  | some b => rw [hb] at h; simp at h; exact h.1

theorem repOk_reverse {rep : List Char} (h : repOk rep = true) :
    repOk rep.reverse = true := by
  unfold repOk at h ⊢
  rw [List.head?_reverse, List.getLast?_reverse]
  cases h1 : rep.getLast? with
  | none =>
    rw [h1] at h
    cases h2 : rep.head? <;> rw [h2] at h <;> simp at h
  | some b =>
    cases h2 : rep.head? with
    | none => rw [h1, h2] at h; simp at h
    | some a =>
      rw [h1, h2] at h
      simp at h ⊢
      exact ⟨h.2, h.1⟩

theorem headOk_replaceAll {c : Char} {rep l : List Char} (hr : repOk rep = true)
    (hl : ∀ d, l.head? = some d → jsWS d = false) :
    ∀ d, (replaceAll c rep l).head? = some d → jsWS d = false := by
  intro d hd
  cases l with
  | nil => simp [replaceAll] at hd
  | cons x xs =>
    by_cases hx : x = c
    · cases hrep : rep with
      | nil => exact absurd hrep (repOk_ne_nil hr)
      | cons a as =>
        rw [show replaceAll c rep (x :: xs) =
          (if x = c then rep else [x]) ++ replaceAll c rep xs from rfl,
          if_pos hx, hrep] at hd
        simp at hd
        exact hd ▸ repOk_head hr a (by simp [hrep])
    · rw [show replaceAll c rep (x :: xs) =
        (if x = c then rep else [x]) ++ replaceAll c rep xs from rfl,
        if_neg hx] at hd
      simp at hd
      exact hd ▸ hl x rfl

/-- A string has clean ends when neither its first nor its last character
is JS whitespace (an empty string qualifies vacuously). -/
def noWsEnds (l : List Char) : Prop :=
  (∀ c, l.head? = some c → jsWS c = false) ∧
  (∀ c, l.getLast? = some c → jsWS c = false)

theorem noWsEnds_replaceAll {c : Char} {rep l : List Char}
    (hr : repOk rep = true) (hl : noWsEnds l) :
    noWsEnds (replaceAll c rep l) := by
  constructor
  · exact headOk_replaceAll hr hl.1
  · intro d hd
    rw [← List.head?_reverse, replaceAll_reverse] at hd
    refine headOk_replaceAll (repOk_reverse hr) ?_ d hd
    intro e he
    rw [List.head?_reverse] at he
    exact hl.2 e he

theorem headOk_dropWhile (p : Char → Bool) (l : List Char) :
    ∀ d, (l.dropWhile p).head? = some d → p d = false := by
  induction l with
  | nil => intro d hd; simp at hd
  | cons x xs ih =>
    intro d hd
    rw [List.dropWhile_cons] at hd
    by_cases hx : p x = true
    · exact ih d (by simpa [hx] using hd)
    · have hpx : p x = false := by simpa using hx
      simp [hpx] at hd
      exact hd ▸ hpx

theorem getLast?_dropWhile (p : Char → Bool) (l : List Char) :
    (l.dropWhile p).getLast? = l.getLast? ∨ l.dropWhile p = [] := by
  induction l with
  | nil => exact Or.inr rfl
  | cons x xs ih =>
    rw [List.dropWhile_cons]
    by_cases hx : p x = true
    · simp only [hx, if_true]
      cases xs with
      | nil => exact Or.inr rfl
      | cons y ys =>
        rcases ih with ih | ih
        · exact Or.inl (by rw [ih, List.getLast?_cons_cons])
        · exact Or.inr ih
    · have hpx : p x = false := by simpa using hx
      simp [hpx]

theorem noWsEnds_jsTrim (l : List Char) : noWsEnds (jsTrim l) := by
  unfold jsTrim
  constructor
  · intro c hc
    rw [List.head?_reverse] at hc
    rcases getLast?_dropWhile jsWS (l.dropWhile jsWS).reverse with h | h
    · rw [h, List.getLast?_reverse] at hc
      exact headOk_dropWhile jsWS l c hc
    · rw [h] at hc
      simp at hc
  · intro c hc
    rw [List.getLast?_reverse] at hc
    exact headOk_dropWhile jsWS _ c hc

theorem dropWhile_eq_self_of_head {p : Char → Bool} {l : List Char}
    (h : ∀ c, l.head? = some c → p c = false) : l.dropWhile p = l := by
  cases l with
  | nil => rfl
  | cons x xs => rw [List.dropWhile_cons, h x rfl]; simp

theorem jsTrim_eq_self {l : List Char} (h : noWsEnds l) : jsTrim l = l := by
  unfold jsTrim
  rw [dropWhile_eq_self_of_head h.1]
  rw [dropWhile_eq_self_of_head
    (by intro c hc; rw [List.head?_reverse] at hc; exact h.2 c hc)]
  exact List.reverse_reverse l

theorem noWsEnds_vEscape {l : List Char} (h : noWsEnds l) :
    noWsEnds (vEscape l) := by
  unfold vEscape
  exact noWsEnds_replaceAll (by decide)
    (noWsEnds_replaceAll (by decide)
      (noWsEnds_replaceAll (by decide)
        (noWsEnds_replaceAll (by decide)
          (noWsEnds_replaceAll (by decide)
            (noWsEnds_replaceAll (by decide)
              (noWsEnds_replaceAll (by decide)
                (noWsEnds_replaceAll (by decide) h)))))))

theorem replaceAll_ne_nil {c : Char} {rep l : List Char} (hrep : rep ≠ [])
    (hl : l ≠ []) : replaceAll c rep l ≠ [] := by
  cases l with
  | nil => exact absurd rfl hl
  | cons x xs =>
    show (if x = c then rep else [x]) ++ replaceAll c rep xs ≠ []
    by_cases hx : x = c <;> simp [hx, hrep]

theorem vEscape_ne_nil {l : List Char} (hl : l ≠ []) : vEscape l ≠ [] := by
  unfold vEscape
  exact replaceAll_ne_nil (by decide)
    (replaceAll_ne_nil (by decide)
      (replaceAll_ne_nil (by decide)
        (replaceAll_ne_nil (by decide)
          (replaceAll_ne_nil (by decide)
            (replaceAll_ne_nil (by decide)
              (replaceAll_ne_nil (by decide)
                (replaceAll_ne_nil (by decide) hl)))))))

theorem not_mem_vEscape_lt (l : List Char) : '<' ∉ vEscape l := by
  unfold vEscape
  exact not_mem_replaceAll (by decide) (Or.inl
    (not_mem_replaceAll (by decide) (Or.inl
      (not_mem_replaceAll (by decide) (Or.inl
        (not_mem_replaceAll (by decide) (Or.inl
          (not_mem_replaceAll (by decide) (Or.inr rfl)))))))))

theorem not_mem_vEscape_gt (l : List Char) : '>' ∉ vEscape l := by
  unfold vEscape
  exact not_mem_replaceAll (by decide) (Or.inl
    (not_mem_replaceAll (by decide) (Or.inl
      (not_mem_replaceAll (by decide) (Or.inl
        (not_mem_replaceAll (by decide) (Or.inr rfl)))))))

/-- On an escaped trimmed nonempty string, sanitize is exactly the
500-character cut: there are no angle brackets left to replace and no
whitespace at either end to trim. -/
theorem sanitize_vEscape_trimmed {m1 : List Char} (h1 : m1 ≠ [])
    (h2 : noWsEnds m1) :
    sanitize (some (vEscape m1)) = (vEscape m1).take 500 := by
  have hne := vEscape_ne_nil h1
  rw [show sanitize (some (vEscape m1)) =
    if vEscape m1 = [] then [] else sanitizeCore (vEscape m1) from rfl,
    if_neg hne]
  unfold sanitizeCore
  rw [replaceAll_of_not_mem (not_mem_vEscape_lt m1),
    replaceAll_of_not_mem (not_mem_vEscape_gt m1),
    jsTrim_eq_self (noWsEnds_vEscape h2)]

/-- C9.  For every contact submission whose name and email validate and
whose trimmed message is within the accepted 10 to 2000 characters but
whose escaped form exceeds 500 characters, the dispatched email body
embeds exactly the first 500 characters of the escaped-and-trimmed
message (the rest is dropped by sanitize), while the response still
reports `success:true`. -/
theorem contact_long_message_truncated (env : Env) (lib : ExtLib)
    (c : ContactBody)
    (hn : (chainTrimNotEmptyEscape c.name).1 = true)
    (he : (chainEmail lib c.email).1 = true)
    (hm : (chainMessage c.message).1 = true)
    (hbig : 500 < (vEscape (jsTrim (c.message.getD []))).length) :
    (contactHandler env lib c Transport.ok).1.success = true ∧
    (contactHandler env lib c Transport.ok).2.map Mail.html =
      [contactHtml (sanitize (some (vEscape (jsTrim (c.name.getD [])))))
        (sanitize (some (lib.normalizeEmail (c.email.getD []))))
        ((vEscape (jsTrim (c.message.getD []))).take 500)] := by
  have hv : contactValidationOk lib c = true := by
    unfold contactValidationOk
    rw [hn, he, hm]
    rfl
  have hm1 : jsTrim (c.message.getD []) ≠ [] := by
    unfold chainMessage at hm
    intro hE
    rw [hE] at hm
    simp at hm
  have hs := sanitize_vEscape_trimmed hm1 (noWsEnds_jsTrim (c.message.getD []))
  simp [contactHandler, hv, okResp, contactMailOf, chainTrimNotEmptyEscape,
    chainEmail, chainMessage, hs]

/-- Contact body whose message is 126 ampersands: valid (126 characters
after trimming) but 630 characters once escaped. -/
def demoContactLong : ContactBody :=
  { demoContact with message := some (List.replicate 126 '&') }

theorem contact_long_message_truncated_witness :
    (chainTrimNotEmptyEscape demoContactLong.name).1 = true ∧
    (chainEmail demoLib demoContactLong.email).1 = true ∧
    (chainMessage demoContactLong.message).1 = true ∧
    500 < (vEscape (jsTrim (demoContactLong.message.getD []))).length ∧
    ((contactHandler demoEnv demoLib demoContactLong Transport.ok).1.success = true ∧
     (contactHandler demoEnv demoLib demoContactLong Transport.ok).2.map Mail.html =
       [contactHtml (sanitize (some (vEscape (jsTrim (demoContactLong.name.getD [])))))
         (sanitize (some (demoLib.normalizeEmail (demoContactLong.email.getD []))))
         ((vEscape (jsTrim (demoContactLong.message.getD []))).take 500)]) :=
  ⟨by decide, by decide, by decide, by decide,
    contact_long_message_truncated demoEnv demoLib demoContactLong
      (by decide) (by decide) (by decide) (by decide)⟩
